import Mathlib

/-!
Shallow embedding of the benchmark-report aggregator (`build_benchmark_md.py`)
and of the CT-ICP dataset wrapper (`slam/dataset/ct_icp_dataset.py`) of the
pyLiDAR-SLAM repository, together with proofs settling the specification
claims about them.

Numeric values are modelled as rationals (`ℚ`); the Python floats carry no
claim-relevant rounding behaviour here.  File-system query results (which
folders and files exist, parsed pose files, parsed YAML fields) are the
inputs of the embedded functions, since I/O itself is an external
collaborator in the spec's scope.
-/

/-- A pose as parsed from a poses file: one line of 12 floats
(3x4 row-major rigid transform).  Only the number of poses is ever
inspected by the embedded code. -/
abbrev Pose := List ℚ

/-- One per-segment error record produced by the metric engine.
The aggregator only ever reads `error["tr_err"][0]`, modelled by the
field `tr_err0`. -/
structure SegmentError where
  tr_err0 : ℚ
deriving DecidableEq, Repr

/-- The per-sequence record stored in `new_metrics[sequence_name]`
(lines 83-88 of `build_benchmark_md.py`). -/
structure SeqMetrics where
  tr_err : ℚ
  rot_err : ℚ
  errors : List SegmentError
  average_time : ℚ
deriving DecidableEq, Repr

/-- The completed per-result-set record stored in `metrics[new_dir]`:
the per-sequence entries (in insertion order, i.e. `folder_names` order,
as a Python dict preserves insertion order) plus the keys
`AVG_tr_err`, `AVG_time`, `has_all_sequences` and (optionally) `command`. -/
structure EntryMetrics where
  seq_metrics : List (String × SeqMetrics)
  avg_tr_err : ℚ
  avg_time : ℚ
  has_all_sequences : Bool
  command : Option String
deriving DecidableEq, Repr

/-- What the aggregator observes about one expected sequence folder inside a
candidate results directory: whether the folder itself exists (line 51),
the parsed contents of `<seq>.poses.txt` and `<seq>_gt.poses.txt` when those
files exist (lines 61-70), and the value `metrics_dict[seq]["nsecs_per_frame"]`
when `metrics.yaml` exists and holds that numeric field (lines 73-79). -/
structure SeqDir where
  folder_exists : Bool
  poses_file : Option (List Pose)
  gt_poses_file : Option (List Pose)
  nsecs_per_frame : Option ℚ

/-- One directory visited by the `os.walk` loop: its path, the per-sequence
observations, and the parsed `.hydra/overrides.yaml` list when present
(lines 110-115). -/
structure DirInput where
  path : String
  seqs : String → SeqDir
  overrides : Option (List String)

/-- `f"{i:02}"` for the values used here (all below 100): left-pad the
decimal representation to two digits. -/
def fmt02 (i : Nat) : String :=
  if i < 10 then "0" ++ Nat.repr i else Nat.repr i

/-- `folder_names = [f"{i:02}" for i in range(11)]` (line 40). -/
def folder_names : List String := (List.range 11).map fmt02

/-- Lines 74-79: `time_ms` is `-1.0`, overwritten with
`float(metrics_dict[seq]["nsecs_per_frame"]) * 1000.0` when the YAML field
is present. -/
def time_ms_of (nsecs : Option ℚ) : ℚ :=
  match nsecs with
  | some v => v * 1000
  | none => -1

/-- The single error kind of the embedded evaluation: the metric engine's
shape-mismatch failure. -/
inductive EvalError
  | shapeMismatch
deriving DecidableEq, Repr

/-- Modelled from the spec: `compute_kitti_metrics` lives in
`slam/eval/eval_odometry.py`, which is not under `src/`.  Spec section 4.1:
preconditions are `len(estimate) == len(ground_truth)` and both non-empty,
and a violation fails with a `ShapeMismatch` error; on success it returns
`(avg_translational_error, avg_rotational_error, segment errors)`.  The
numeric computation itself (an external concern for every claim here) is
abstracted as the parameter `core`. -/
def compute_kitti_metrics (core : List Pose → List Pose → ℚ × ℚ × List SegmentError)
    (poses gt_poses : List Pose) : Except EvalError (ℚ × ℚ × List SegmentError) :=
  if poses.length = gt_poses.length ∧ poses ≠ [] then .ok (core poses gt_poses)
  else .error .shapeMismatch

/-- Both pose files of a sequence were found (the condition of line 63). -/
def presentPair (sd : SeqDir) : Bool :=
  sd.poses_file.isSome && sd.gt_poses_file.isSome

/-- Both pose files were found but evaluating them fails the metric engine's
precondition (mismatched lengths or empty). -/
def presentBad (sd : SeqDir) : Bool :=
  match sd.poses_file, sd.gt_poses_file with
  | some p, some g => !(decide (p.length = g.length ∧ p ≠ []))
  | _, _ => false

/-- The `new_metrics[sequence_name]` record computed for a found sequence
(lines 69-88); the error branch is unreachable whenever the surrounding loop
did not abort. -/
def seqMetricsOf (core : List Pose → List Pose → ℚ × ℚ × List SegmentError)
    (sd : SeqDir) : SeqMetrics :=
  match sd.poses_file, sd.gt_poses_file with
  | some p, some g =>
    match compute_kitti_metrics core p g with
    | .ok res =>
      { tr_err := res.1, rot_err := res.2.1, errors := res.2.2
        average_time := time_ms_of sd.nsecs_per_frame }
    | .error _ => ⟨0, 0, [], 0⟩
  | _, _ => ⟨0, 0, [], 0⟩

/-- The `for sequence_name in folder_names` loop of lines 58-90: collects the
per-sequence records in encounter order together with `has_all_sequences`.
An exception raised by `compute_kitti_metrics` is not caught anywhere in
`build_benchmark`, so it aborts the computation (the `.error` results). -/
def seqLoop (core : List Pose → List Pose → ℚ × ℚ × List SegmentError)
    (d : String → SeqDir) :
    List String → Except EvalError (List (String × SeqMetrics) × Bool)
  | [] => .ok ([], true)
  | s :: rest =>
    match (d s).poses_file, (d s).gt_poses_file with
    | some poses, some gt_poses =>
      match compute_kitti_metrics core poses gt_poses with
      | .error e => .error e
      | .ok res =>
        match seqLoop core d rest with
        | .error e => .error e
        | .ok (ms, has) =>
          .ok ((s, { tr_err := res.1, rot_err := res.2.1, errors := res.2.2
                     average_time := time_ms_of (d s).nsecs_per_frame }) :: ms, has)
    | _, _ =>
      match seqLoop core d rest with
      | .error e => .error e
      | .ok (ms, _) => .ok (ms, false)

/-- First-match association-list lookup, the model of a Python dict read. -/
def lookupSeq (ms : List (String × SeqMetrics)) (s : String) : Option SeqMetrics :=
  match ms with
  | [] => none
  | (t, m) :: rest => if t = s then some m else lookupSeq rest s

/-- The command line rebuilt from `.hydra/overrides.yaml` (lines 110-115). -/
def commandOf (overrides : Option (List String)) : Option String :=
  overrides.map (fun l => "`python run.py " ++ String.intercalate " " l ++ "`")

/-- Lines 92-106: the aggregate fields added to a non-empty `new_metrics`.
With `has_all_sequences` the flat list `_errors` concatenates every
sequence's `errors` and `AVG_tr_err` is its mean of `tr_err[0]` values times
100, while `AVG_time` averages `new_metrics[seq]["average_time"]` over
`folder_names`; otherwise both aggregates are the sentinel `-1.0`.
(Python would raise `ZeroDivisionError` if `_errors` were empty and
`KeyError` if a folder name were absent with `has_all` set; the `ℚ`
division-by-zero convention and the `getD` default stand in for those
off-trace situations, which no produced entry reaches.) -/
def mkEntry (ms : List (String × SeqMetrics)) (has_all : Bool)
    (cmd : Option String) : EntryMetrics :=
  if has_all then
    { seq_metrics := ms
      avg_tr_err :=
        (((ms.map (fun p => p.2.errors)).flatten.map (fun sg => sg.tr_err0)).sum /
          (((ms.map (fun p => p.2.errors)).flatten.length : ℚ))) * 100
      avg_time :=
        ((folder_names.map
            (fun s => ((lookupSeq ms s).getD ⟨0, 0, [], 0⟩).average_time)).sum) /
          ((folder_names.length : ℚ))
      has_all_sequences := true
      command := cmd }
  else
    { seq_metrics := ms, avg_tr_err := -1, avg_time := -1
      has_all_sequences := false, command := cmd }

/-- Lines 48-52: a directory is a candidate results directory when one of the
expected sequence folders exists inside it. -/
def is_metrics_dir (d : String → SeqDir) : Bool :=
  folder_names.any (fun f => (d f).folder_exists)

/-- Processing of one directory of the walk (lines 46-115): `Except.ok none`
when no entry is recorded for it, `Except.ok (some e)` when
`metrics[new_dir]` is set to `e`, `.error` when an uncaught metric-engine
exception aborts `build_benchmark`. -/
def processDir (core : List Pose → List Pose → ℚ × ℚ × List SegmentError)
    (dir : DirInput) : Except EvalError (Option EntryMetrics) :=
  if is_metrics_dir dir.seqs then
    match seqLoop core dir.seqs folder_names with
    | .error e => .error e
    | .ok (ms, has_all) =>
      if ms.isEmpty then .ok none
      else .ok (some (mkEntry ms has_all (commandOf dir.overrides)))
  else .ok none

/-- The whole collection pass over `directory_list`: the `metrics` mapping in
encounter order.  An exception in any directory aborts the entire run. -/
def buildBenchmark (core : List Pose → List Pose → ℚ × ℚ × List SegmentError) :
    List DirInput → Except EvalError (List (String × EntryMetrics))
  | [] => .ok []
  | d :: rest =>
    match processDir core d with
    | .error e => .error e
    | .ok oe =>
      match buildBenchmark core rest with
      | .error e => .error e
      | .ok entries =>
        match oe with
        | some e => .ok ((d.path, e) :: entries)
        | none => .ok entries

/-- Convenience accessor for the produced entry of one directory. -/
def entryOf (r : Except EvalError (Option EntryMetrics)) : Option EntryMetrics :=
  match r with
  | .ok o => o
  | .error _ => none

/-- `exceptIsOk r` is true when `r` carries a value. -/
def exceptIsOk {ε α : Type} : Except ε α → Bool
  | .ok _ => true
  | .error _ => false

/-- Arithmetic mean of a list of rationals (`sum(l)/len(l)`). -/
def listMean (l : List ℚ) : ℚ := l.sum / (l.length : ℚ)

/-- The flat list of per-segment error records over all sequences of an
entry, in sequence order: the `_errors` list of lines 95-97. -/
def flatSegErrs (ms : List (String × SeqMetrics)) : List SegmentError :=
  (ms.map (fun p => p.2.errors)).flatten

/-- Modelled from the spec's words (for comparison with the code's flat
average): the mean over sequences of each sequence's mean per-segment
translational error, on the same percent scale as `AVG_tr_err`. -/
def specMeanOfSeqMeans (ms : List (String × SeqMetrics)) : ℚ :=
  listMean (ms.map (fun p => listMean (p.2.errors.map (fun sg => sg.tr_err0 * 100))))

/-- The sort key of line 121: `x[1] if x[2] else float("inf")`, with
`float("inf")` modelled by `⊤` of `WithTop ℚ`. -/
def sortKey (e : EntryMetrics) : WithTop ℚ :=
  if e.has_all_sequences then (e.avg_tr_err : WithTop ℚ) else ⊤

/-- The comparison used by the ranking sort. -/
def entryLE (a b : String × EntryMetrics) : Prop :=
  sortKey a.2 ≤ sortKey b.2

instance : DecidableRel entryLE :=
  fun a b => inferInstanceAs (Decidable (sortKey a.2 ≤ sortKey b.2))

instance : IsTotal (String × EntryMetrics) entryLE :=
  ⟨fun a b => le_total (sortKey a.2) (sortKey b.2)⟩

instance : IsTrans (String × EntryMetrics) entryLE :=
  ⟨fun _ _ _ hab hbc => le_trans hab hbc⟩

/-- Lines 118-121: the ranking of the collected entries.  Python's
`list.sort` is a stable ascending sort by the key; `List.insertionSort` with
the same key comparison is such a sort.  (Python sorts the projected triples
`(path, AVG_tr_err, has_all_sequences)` and re-reads `metrics[path]` when
rendering; since the dict keys are unique and the key function reads only
fields carried by the pair, sorting the `(path, entry)` pairs directly is the
same computation.) -/
def rank (l : List (String × EntryMetrics)) : List (String × EntryMetrics) :=
  List.insertionSort entryLE l

/-- Fixed-width decimal digit rendering: the `d` least-significant decimal
digits of `n`, most significant first. -/
def padDigits : Nat → Nat → List Char
  | 0, _ => []
  | d + 1, n => padDigits d (n / 10) ++ [Nat.digitChar (n % 10)]

/-- Python's fixed-point formatting `f"{q:.df}"`: round `q * 10^d` to the
nearest integer and render sign, integer part and exactly `d` fractional
digits.  (Python rounds the underlying binary double; no claim here touches
a decimal tie, so `round` stands in for that rounding.) -/
def fmtFixed (d : Nat) (q : ℚ) : String :=
  let scaled : ℤ := round (q * ((10 : ℚ) ^ d))
  let sgn := if scaled < 0 then "-" else ""
  sgn ++ Nat.repr (scaled.natAbs / 10 ^ d) ++ "." ++
    String.mk (padDigits d (scaled.natAbs % 10 ^ d))

/-- `s` is a fixed-point numeral with exactly `d` digits after the decimal
point: everything after the final `"."` is a dot-free run of `d` characters. -/
def hasFracDigits (d : Nat) (s : String) : Prop :=
  ∃ a : String, ∃ b : List Char,
    s = a ++ "." ++ String.mk b ∧ b.length = d ∧ ∀ c ∈ b, c ≠ '.'

/-- The per-sequence cell of line 139:
`f"{float(_metrics[seq]['tr_err']) * 100:.4f}" if seq in _metrics else ''`. -/
def seqCell (ms : List (String × SeqMetrics)) (s : String) : String :=
  match lookupSeq ms s with
  | some sm => fmtFixed 4 (sm.tr_err * 100)
  | none => ""

/-- One row of the main benchmark table (lines 133-143): the per-sequence
error cells in `folder_names` order, the aggregate-error cell and the
aggregate-time cell.  (The leading identifier cell is the path link of line
141, whose `Path.resolve` is a file-system concern outside this model.) -/
structure Row where
  seq_cells : List String
  avg_cell : String
  time_cell : String
deriving DecidableEq, Repr

/-- Line 142: the row rendered for one ranked entry; the aggregate error is
printed (to four decimals) only when `has_all_sequences`, the time always
(to three decimals). -/
def buildRow (e : EntryMetrics) : Row :=
  { seq_cells := folder_names.map (seqCell e.seq_metrics)
    avg_cell := if e.has_all_sequences then fmtFixed 4 e.avg_tr_err else ""
    time_cell := fmtFixed 3 e.avg_time }

/-- Lines 133-143: one table row per ranked entry, in ranked order. -/
def buildTable (entries : List (String × EntryMetrics)) : List Row :=
  (rank entries).map (fun pe => buildRow pe.2)

/-! ## The CT-ICP dataset wrapper (`slam/dataset/ct_icp_dataset.py`) -/

/-- Modelled from the spec: `assert_debug` lives in `slam/common/utils.py`,
which is not under `src/`.  It is the repository's assertion helper: it
fails with the given message when the condition is false, and is a no-op
otherwise. -/
def assert_debug (cond : Bool) (msg : String) : Except String Unit :=
  if cond then .ok () else .error msg

/-- `__KITTI_SEQUENCE = [f"{i:02}" for i in range(22) if i != 3]`
(line 132). -/
def KITTI_SEQUENCE : List String :=
  ((List.range 22).filter (fun i => i ≠ 3)).map fmt02

/-- `__KITTI_CARLA_SEQUENCE = [f"Town{1 + i:02}" for i in range(7)]`
(line 133). -/
def KITTI_CARLA_SEQUENCE : List String :=
  (List.range 7).map (fun i => "Town" ++ fmt02 (1 + i))

/-- `CT_ICPDatasetLoader.have_sequence` (lines 135-138): membership in either
class-level sequence list. -/
def have_sequence (seq_name : String) : Bool :=
  KITTI_SEQUENCE.contains seq_name || KITTI_CARLA_SEQUENCE.contains seq_name

/-- A value stored in the dict returned by
`CT_ICPDatasetSequence.__getitem__`: a numpy array copied out of the lidar
frame, or a ground-truth pose matrix. -/
inductive ChanVal
  | floatArr (a : List ℚ)
  | poseMat (p : List ℚ)
deriving DecidableEq, Repr

/-- The two numpy fields read from a lidar frame's structured array
(lines 114-116): `raw_point` and `timestamp`. -/
structure LidarFrame where
  raw_point : List ℚ
  timestamp : List ℚ

/-- The Python dict built by `__getitem__`, as an insertion-ordered
association list. -/
abbrev ChanDict := List (String × ChanVal)

/-- Python dict assignment `d[k] = v`: replace in place when the key exists,
append otherwise. -/
def dictSet (d : ChanDict) (k : String) (v : ChanVal) : ChanDict :=
  if d.any (fun p => p.1 == k) then
    d.map (fun p => if p.1 == k then (k, v) else p)
  else d ++ [(k, v)]

/-- `k in d` for the channel dict. -/
def containsChannel (d : ChanDict) (k : String) : Bool :=
  d.any (fun p => p.1 == k)

/-- The state of a constructed `CT_ICPDatasetSequence`: the number of frames
of the underlying native sequence, random access to its frames, the loaded
ground truth (if any) and the two channel names.  The native library's
per-frame data and ground-truth array are external inputs, modelled as total
functions on the frame index. -/
structure CTSeq where
  numFrames : Nat
  frames : Nat → LidarFrame
  gt : Option (Nat → List ℚ)
  gt_pose_channel : String
  numpy_pc_channel : String

/-- `CT_ICPDatasetSequence.__init__` (lines 87-102): stores the channel
names and sets `self.gt` to the loaded ground truth exactly when
`pct.has_ground_truth(options, sequence_id)` holds, `None` otherwise. -/
def CTSeq.init (numFrames : Nat) (frames : Nat → LidarFrame)
    (hasGroundTruth : Bool) (loadedGT : Nat → List ℚ)
    (gt_pose_channel : String) (numpy_pc_channel : String) : CTSeq :=
  { numFrames := numFrames, frames := frames
    gt := if hasGroundTruth then some loadedGT else none
    gt_pose_channel := gt_pose_channel, numpy_pc_channel := numpy_pc_channel }

/-- `CT_ICPDatasetSequence.__getitem__` (lines 107-124): assert the index is
in bounds (`"Index Error"`), then build the dict with the point-cloud
channel, its timestamps channel, and — when ground truth was loaded — the
ground-truth pose channel. -/
def CTSeq.getitem (seq : CTSeq) (idx : Int) : Except String ChanDict :=
  match assert_debug (decide (0 ≤ idx ∧ idx < (seq.numFrames : Int))) "Index Error" with
  | .error e => .error e
  | .ok _ =>
    let frame := seq.frames idx.toNat
    let d : ChanDict := dictSet [] seq.numpy_pc_channel (.floatArr frame.raw_point)
    let d := dictSet d (seq.numpy_pc_channel ++ "_timestamps") (.floatArr frame.timestamp)
    let d :=
      match seq.gt with
      | some g => dictSet d seq.gt_pose_channel (.poseMat (g idx.toNat))
      | none => d
    .ok d

/-- The dict of a successful `__getitem__`, empty on failure. -/
def dictOfResult (r : Except String ChanDict) : ChanDict :=
  match r with
  | .ok d => d
  | .error _ => []

/-! ## General helpers -/

instance {ε α : Type} [DecidableEq ε] [DecidableEq α] : DecidableEq (Except ε α) :=
  fun a b =>
    match a, b with
    | .ok x, .ok y => if h : x = y then isTrue (by rw [h]) else isFalse (by simp [h])
    | .error x, .error y => if h : x = y then isTrue (by rw [h]) else isFalse (by simp [h])
    | .ok _, .error _ => isFalse (by simp)
    | .error _, .ok _ => isFalse (by simp)

/-! ## Lemmas about the ranking sort -/

theorem sortKey_le_of_complete {a b : EntryMetrics} (hab : sortKey a ≤ sortKey b)
    (ha : a.has_all_sequences = true) (hb : b.has_all_sequences = true) :
    a.avg_tr_err ≤ b.avg_tr_err := by
  rw [sortKey, sortKey, if_pos ha, if_pos hb] at hab
  exact_mod_cast hab

theorem complete_of_sortKey_le {a b : EntryMetrics} (hab : sortKey a ≤ sortKey b)
    (hb : b.has_all_sequences = true) : a.has_all_sequences = true := by
  by_contra hna
  rw [sortKey, sortKey, if_pos hb, if_neg hna] at hab
  exact WithTop.coe_ne_top (top_le_iff.mp hab)

theorem filter_orderedInsert (k : WithTop ℚ) (a : String × EntryMetrics)
    (t : List (String × EntryMetrics)) :
    (List.orderedInsert entryLE a t).filter (fun e => decide (sortKey e.2 = k)) =
      if sortKey a.2 = k then
        a :: t.filter (fun e => decide (sortKey e.2 = k))
      else t.filter (fun e => decide (sortKey e.2 = k)) := by
  induction t with
  | nil =>
    by_cases hk : sortKey a.2 = k <;>
      simp [List.orderedInsert, List.filter, hk]
  | cons b t ih =>
    rw [List.orderedInsert]
    by_cases hab : entryLE a b
    · rw [if_pos hab, List.filter_cons, List.filter_cons]
      by_cases hk : sortKey a.2 = k <;> simp [hk]
    · rw [if_neg hab, List.filter_cons, ih, List.filter_cons]
      by_cases hk : sortKey a.2 = k
      · have hbk : ¬ sortKey b.2 = k := by
          intro hbk
          exact hab (by simp [entryLE, hk, hbk])
        simp [hk, hbk]
      · by_cases hbk : sortKey b.2 = k <;> simp [hk, hbk]

/-- C1 -- For every mapping of result entries handed to the ranking step, the
ranked output is a permutation of the input in which (a) any two complete
entries appear in nondecreasing `AVG_tr_err` order and (b) no incomplete
entry ever precedes a complete one, i.e. all incomplete entries come
strictly after all complete entries, whatever sentinel `avg_tr_err` they
carry. -/
theorem ranked_complete_sorted_incomplete_last (l : List (String × EntryMetrics)) :
    (rank l).Perm l ∧
    List.Pairwise (fun a b =>
      (a.2.has_all_sequences = true → b.2.has_all_sequences = true →
        a.2.avg_tr_err ≤ b.2.avg_tr_err) ∧
      (b.2.has_all_sequences = true → a.2.has_all_sequences = true)) (rank l) := by
  refine ⟨List.perm_insertionSort entryLE l, ?_⟩
  have h := List.sorted_insertionSort entryLE l
  exact h.imp (fun hab =>
    ⟨fun ha hb => sortKey_le_of_complete hab ha hb,
     fun hb => complete_of_sortKey_le hab hb⟩)

/-- C6 -- The ranking is a stable sort: for every sort-key value `k`, the
subsequence of ranked entries whose key equals `k` (entries tied on
`avg_tr_err`, or tied because both are incomplete) is exactly the
subsequence of input entries with that key, in input (encounter) order. -/
theorem ranked_stable (l : List (String × EntryMetrics)) (k : WithTop ℚ) :
    (rank l).filter (fun e => decide (sortKey e.2 = k)) =
      l.filter (fun e => decide (sortKey e.2 = k)) := by
  induction l with
  | nil => rfl
  | cons a l ih =>
    rw [rank, List.insertionSort, filter_orderedInsert, List.filter_cons]
    by_cases hk : sortKey a.2 = k
    · rw [if_pos hk]
      rw [rank] at ih
      simp [hk, ih]
    · rw [if_neg hk]
      rw [rank] at ih
      simp [hk, ih]

/-! ## Lemmas about the per-directory sequence loop -/

theorem presentBad_spec {sd : SeqDir} (h : presentBad sd = true) :
    ∃ p g, sd.poses_file = some p ∧ sd.gt_poses_file = some g ∧
      ¬ (p.length = g.length ∧ p ≠ []) := by
  unfold presentBad at h
  rcases hp : sd.poses_file with _ | p <;> rcases hg : sd.gt_poses_file with _ | g <;>
    rw [hp, hg] at h <;> simp at h
  refine ⟨p, g, rfl, rfl, ?_⟩
  intro hc
  rcases h with h | h
  · exact h hc.1
  · exact hc.2 h

theorem presentBad_false_spec {sd : SeqDir} (h : presentBad sd = false)
    {p g : List Pose} (hp : sd.poses_file = some p) (hg : sd.gt_poses_file = some g) :
    p.length = g.length ∧ p ≠ [] := by
  unfold presentBad at h
  rw [hp, hg] at h
  simpa using h

theorem compute_kitti_metrics_ok
    {core : List Pose → List Pose → ℚ × ℚ × List SegmentError} {p g : List Pose}
    (h : p.length = g.length ∧ p ≠ []) :
    compute_kitti_metrics core p g = .ok (core p g) := by
  rw [compute_kitti_metrics, if_pos h]

theorem compute_kitti_metrics_error
    {core : List Pose → List Pose → ℚ × ℚ × List SegmentError} {p g : List Pose}
    (h : ¬ (p.length = g.length ∧ p ≠ [])) :
    compute_kitti_metrics core p g = .error .shapeMismatch := by
  rw [compute_kitti_metrics, if_neg h]

theorem seqMetricsOf_of_good {core : List Pose → List Pose → ℚ × ℚ × List SegmentError}
    {sd : SeqDir} {p g : List Pose} (hp : sd.poses_file = some p)
    (hg : sd.gt_poses_file = some g) (hok : p.length = g.length ∧ p ≠ []) :
    seqMetricsOf core sd =
      { tr_err := (core p g).1, rot_err := (core p g).2.1, errors := (core p g).2.2
        average_time := time_ms_of sd.nsecs_per_frame } := by
  rw [seqMetricsOf]
  simp only [hp, hg, compute_kitti_metrics_ok hok]

/-- When no found sequence violates the metric engine's precondition, the
loop succeeds and returns exactly the found sequences, with the
`has_all_sequences` flag recording whether every expected sequence was
found. -/
theorem seqLoop_ok_of_noBad (core : List Pose → List Pose → ℚ × ℚ × List SegmentError)
    (d : String → SeqDir) :
    ∀ names : List String, (∀ s ∈ names, presentBad (d s) = false) →
      seqLoop core d names =
        .ok ((names.filter (fun s => presentPair (d s))).map
              (fun s => (s, seqMetricsOf core (d s))),
             names.all (fun s => presentPair (d s))) := by
  intro names
  induction names with
  | nil => intro _; rfl
  | cons s rest ih =>
    intro hgood
    have hrest := ih (fun t ht => hgood t (List.mem_cons_of_mem s ht))
    have hs := hgood s (List.mem_cons_self s rest)
    rw [seqLoop]
    rcases hp : (d s).poses_file with _ | p <;> rcases hg : (d s).gt_poses_file with _ | g
    · simp only [hp, hg, hrest]
      simp [List.filter_cons, List.all_cons, presentPair, hp, hg]
    · simp only [hp, hg, hrest]
      simp [List.filter_cons, List.all_cons, presentPair, hp, hg]
    · simp only [hp, hg, hrest]
      simp [List.filter_cons, List.all_cons, presentPair, hp, hg]
    · have hok := presentBad_false_spec hs hp hg
      simp only [hp, hg, compute_kitti_metrics_ok hok, hrest]
      simp [List.filter_cons, List.all_cons, presentPair, hp, hg,
        seqMetricsOf_of_good hp hg hok]

/-- A found sequence violating the metric engine's precondition aborts the
loop with the shape-mismatch error. -/
theorem seqLoop_error_of_bad (core : List Pose → List Pose → ℚ × ℚ × List SegmentError)
    (d : String → SeqDir) :
    ∀ names : List String, (∃ s ∈ names, presentBad (d s) = true) →
      seqLoop core d names = .error .shapeMismatch := by
  intro names
  induction names with
  | nil => rintro ⟨s, hs, _⟩; exact absurd hs (List.not_mem_nil s)
  | cons s rest ih =>
    rintro ⟨t, ht, hbad⟩
    rw [seqLoop]
    rcases List.mem_cons.mp ht with rfl | htrest
    · obtain ⟨p, g, hp, hg, hnot⟩ := presentBad_spec hbad
      simp only [hp, hg, compute_kitti_metrics_error hnot]
    · have hrest := ih ⟨t, htrest, hbad⟩
      rcases hp : (d s).poses_file with _ | p <;> rcases hg : (d s).gt_poses_file with _ | g
      · simp only [hp, hg, hrest]
      · simp only [hp, hg, hrest]
      · simp only [hp, hg, hrest]
      · rcases hc : compute_kitti_metrics core p g with e | res
        · cases e
          simp only [hp, hg, hc]
        · simp only [hp, hg, hc, hrest]

/-- A successful loop implies no found sequence was bad. -/
theorem seqLoop_ok_noBad {core : List Pose → List Pose → ℚ × ℚ × List SegmentError}
    {d : String → SeqDir} {names : List String}
    {out : List (String × SeqMetrics) × Bool}
    (h : seqLoop core d names = .ok out) :
    ∀ s ∈ names, presentBad (d s) = false := by
  intro s hs
  by_contra hbad
  rw [seqLoop_error_of_bad core d names ⟨s, hs, Bool.of_not_eq_false hbad⟩] at h
  exact Except.noConfusion h

/-- Characterization of any successful loop run. -/
theorem seqLoop_ok_inv {core : List Pose → List Pose → ℚ × ℚ × List SegmentError}
    {d : String → SeqDir} {names : List String}
    {ms : List (String × SeqMetrics)} {has : Bool}
    (h : seqLoop core d names = .ok (ms, has)) :
    ms = (names.filter (fun s => presentPair (d s))).map
          (fun s => (s, seqMetricsOf core (d s))) ∧
    has = names.all (fun s => presentPair (d s)) := by
  have hgood := seqLoop_ok_noBad h
  rw [seqLoop_ok_of_noBad core d names hgood] at h
  injection h with h
  injection h with h1 h2
  exact ⟨h1.symm, h2.symm⟩

/-! ## Lemmas about `processDir` -/

/-- Inversion of a produced entry: it was recorded for a recognized metrics
directory, from a non-empty successful loop run. -/
theorem processDir_ok_inv {core : List Pose → List Pose → ℚ × ℚ × List SegmentError}
    {dir : DirInput} {e : EntryMetrics}
    (h : processDir core dir = .ok (some e)) :
    is_metrics_dir dir.seqs = true ∧
    ∃ ms has, seqLoop core dir.seqs folder_names = .ok (ms, has) ∧ ms ≠ [] ∧
      e = mkEntry ms has (commandOf dir.overrides) := by
  unfold processDir at h
  by_cases hm : is_metrics_dir dir.seqs
  · rw [if_pos hm] at h
    refine ⟨hm, ?_⟩
    rcases hl : seqLoop core dir.seqs folder_names with err | pair
    · simp [hl] at h
    · obtain ⟨ms, has⟩ := pair
      simp only [hl] at h
      by_cases hne : ms.isEmpty
      · rw [if_pos hne] at h
        simp at h
      · rw [if_neg hne] at h
        refine ⟨ms, has, rfl, by simpa using hne, ?_⟩
        injection h with h
        injection h with h
        exact h.symm
  · rw [if_neg hm] at h
    simp at h

/-- Any produced entry is exactly the record built from the found sequences
of the directory, with `has_all_sequences` saying every expected sequence
was found. -/
theorem processDir_entry_char {core : List Pose → List Pose → ℚ × ℚ × List SegmentError}
    {dir : DirInput} {e : EntryMetrics}
    (h : processDir core dir = .ok (some e)) :
    e = mkEntry
          ((folder_names.filter (fun s => presentPair (dir.seqs s))).map
            (fun s => (s, seqMetricsOf core (dir.seqs s))))
          (folder_names.all (fun s => presentPair (dir.seqs s)))
          (commandOf dir.overrides) ∧
    ∀ s ∈ folder_names, presentBad (dir.seqs s) = false := by
  obtain ⟨-, ms, has, hl, -, he⟩ := processDir_ok_inv h
  obtain ⟨h1, h2⟩ := seqLoop_ok_inv hl
  exact ⟨by rw [he, h1, h2], seqLoop_ok_noBad hl⟩

/-- `mkEntry` publishes its `has_all` argument as `has_all_sequences`. -/
theorem mkEntry_has_all (ms : List (String × SeqMetrics)) (has_all : Bool)
    (cmd : Option String) : (mkEntry ms has_all cmd).has_all_sequences = has_all := by
  cases has_all <;> simp [mkEntry]

/-- `mkEntry` publishes its sequence records unchanged. -/
theorem mkEntry_seq_metrics (ms : List (String × SeqMetrics)) (has_all : Bool)
    (cmd : Option String) : (mkEntry ms has_all cmd).seq_metrics = ms := by
  cases has_all <;> simp [mkEntry]

theorem lookupSeq_map (f : String → SeqMetrics) :
    ∀ (names : List String) (s : String),
      lookupSeq (names.map (fun t => (t, f t))) s =
        if s ∈ names then some (f s) else none := by
  intro names
  induction names with
  | nil => intro s; simp [lookupSeq]
  | cons t rest ih =>
    intro s
    rw [List.map_cons, lookupSeq]
    by_cases hts : t = s
    · subst hts
      simp
    · rw [if_neg hts, ih]
      by_cases hs : s ∈ rest
      · simp [hs]
      · have : ¬ s ∈ t :: rest := by
          intro hmem
          rcases List.mem_cons.mp hmem with h | h
          · exact hts h.symm
          · exact hs h
        simp [hs, this]

theorem presentPair_spec {sd : SeqDir} (h : presentPair sd = true) :
    ∃ p g, sd.poses_file = some p ∧ sd.gt_poses_file = some g := by
  unfold presentPair at h
  rcases hp : sd.poses_file with _ | p <;> rcases hg : sd.gt_poses_file with _ | g <;>
    rw [hp, hg] at h <;> simp at h
  exact ⟨p, g, rfl, rfl⟩

theorem seqMetricsOf_average_time {core : List Pose → List Pose → ℚ × ℚ × List SegmentError}
    {sd : SeqDir} (hpres : presentPair sd = true) (hgood : presentBad sd = false) :
    (seqMetricsOf core sd).average_time = time_ms_of sd.nsecs_per_frame := by
  obtain ⟨p, g, hp, hg⟩ := presentPair_spec hpres
  rw [seqMetricsOf_of_good hp hg (presentBad_false_spec hgood hp hg)]

/-- For an entry with `has_all_sequences`, the per-sequence records cover
exactly the expected folder names, in order. -/
theorem entry_seq_metrics_all {core : List Pose → List Pose → ℚ × ℚ × List SegmentError}
    {dir : DirInput} {e : EntryMetrics}
    (h : processDir core dir = .ok (some e)) (hall : e.has_all_sequences = true) :
    e.seq_metrics = folder_names.map (fun s => (s, seqMetricsOf core (dir.seqs s))) ∧
    e = mkEntry (folder_names.map (fun s => (s, seqMetricsOf core (dir.seqs s)))) true
          (commandOf dir.overrides) ∧
    ∀ s ∈ folder_names, presentPair (dir.seqs s) = true := by
  obtain ⟨he, _⟩ := processDir_entry_char h
  have hhas : folder_names.all (fun s => presentPair (dir.seqs s)) = true := by
    rw [he, mkEntry_has_all] at hall
    exact hall
  have hpres : ∀ s ∈ folder_names, presentPair (dir.seqs s) = true := by
    intro s hs
    exact List.all_eq_true.mp hhas s hs
  have hfilter : folder_names.filter (fun s => presentPair (dir.seqs s)) = folder_names :=
    List.filter_eq_self.mpr hpres
  rw [hhas, hfilter] at he
  exact ⟨by rw [he, mkEntry_seq_metrics], he, hpres⟩

/-- C7 -- For every produced entry with `has_all_sequences`, the aggregate
`AVG_time` is the arithmetic mean, over all eleven expected sequences, of
the per-sequence frame time `nsecs_per_frame * 1000.0`, with the sentinel
`-1.0` standing in, inside the mean as-is, for every sequence whose timing
metadata is missing (that is exactly `time_ms_of`). -/
theorem avg_time_is_sentinel_mean (core : List Pose → List Pose → ℚ × ℚ × List SegmentError)
    (dir : DirInput) (e : EntryMetrics)
    (h : processDir core dir = .ok (some e)) (hall : e.has_all_sequences = true) :
    e.avg_time =
      (folder_names.map (fun s => time_ms_of ((dir.seqs s).nsecs_per_frame))).sum /
        (folder_names.length : ℚ) := by
  obtain ⟨-, he, hpres⟩ := entry_seq_metrics_all h hall
  have hgood := (processDir_entry_char h).2
  rw [he]
  show (((folder_names.map (fun s =>
      ((lookupSeq (folder_names.map (fun t => (t, seqMetricsOf core (dir.seqs t)))) s).getD
        ⟨0, 0, [], 0⟩).average_time))).sum) / ((folder_names.length : ℚ)) = _
  have hmap : (folder_names.map (fun s =>
      ((lookupSeq (folder_names.map (fun t => (t, seqMetricsOf core (dir.seqs t)))) s).getD
        ⟨0, 0, [], 0⟩).average_time)) =
      folder_names.map (fun s => time_ms_of ((dir.seqs s).nsecs_per_frame)) := by
    refine List.map_congr_left ?_
    intro s hs
    rw [lookupSeq_map, if_pos hs]
    exact seqMetricsOf_average_time (hpres s hs) (hgood s hs)
  rw [hmap]

/-- C3 (amended) -- For every sequence record of a produced entry whose
timing metadata held a `nsecs_per_frame` value `v`, the stored per-sequence
time is `v * 1000.0` (the code's actual scaling; not `v * 1e-6`). -/
theorem stored_time_scaling (core : List Pose → List Pose → ℚ × ℚ × List SegmentError)
    (dir : DirInput) (e : EntryMetrics) (s : String) (sm : SeqMetrics) (v : ℚ)
    (h : processDir core dir = .ok (some e))
    (hs : lookupSeq e.seq_metrics s = some sm)
    (hv : (dir.seqs s).nsecs_per_frame = some v) :
    sm.average_time = v * 1000 := by
  obtain ⟨he, hgood⟩ := processDir_entry_char h
  rw [he, mkEntry_seq_metrics, lookupSeq_map] at hs
  by_cases hmem : s ∈ folder_names.filter (fun t => presentPair (dir.seqs t))
  · rw [if_pos hmem] at hs
    injection hs with hs
    have hmem2 := List.mem_filter.mp hmem
    rw [← hs, seqMetricsOf_average_time hmem2.2 (hgood s hmem2.1), hv]
    rfl
  · rw [if_neg hmem] at hs
    exact Option.noConfusion hs

/-! ## Concrete fixtures -/

/-- A trivial metric-engine core (all errors zero, no segments). -/
def core0 : List Pose → List Pose → ℚ × ℚ × List SegmentError := fun _ _ => (0, 0, [])

/-- A metric-engine core producing one segment error per estimated pose,
with the pose's first coordinate as its translational error; it lets a
fixture give different sequences different segment counts. -/
def core1 : List Pose → List Pose → ℚ × ℚ × List SegmentError :=
  fun p _ => (0, 0, p.map (fun row => ⟨row.headD 0⟩))

/-- A fallback entry used only to read values out of an `Option`. -/
def defaultEntry : EntryMetrics := ⟨[], 0, 0, false, none⟩

/-- A directory whose folder `00` exists but holds no pose files at all (and
no other expected folder exists): recognized as a results directory, yet no
sequence is found. -/
def cx5 : DirInput :=
  { path := "cx5", overrides := none
    seqs := fun s => if s = "00" then ⟨true, none, none, none⟩ else ⟨false, none, none, none⟩ }

/-- A directory whose sequence `01` has pose files of mismatched lengths
(estimate: one pose, ground truth: two). -/
def dirBad : DirInput :=
  { path := "bad", overrides := none
    seqs := fun s => if s = "01" then ⟨true, some [[1]], some [[1], [2]], none⟩
                     else ⟨false, none, none, none⟩ }

/-- A directory whose sequence `00` has a well-formed pair of pose files and
timing metadata `nsecs_per_frame = 7`; the other expected sequences are
missing. -/
def dirGood : DirInput :=
  { path := "good", overrides := none
    seqs := fun s => if s = "00" then ⟨true, some [[1]], some [[2]], some 7⟩
                     else ⟨false, none, none, none⟩ }

/-- The entry produced for `dirGood`. -/
def entryGood : EntryMetrics := (entryOf (processDir core0 dirGood)).getD defaultEntry

/-- A directory in which all eleven expected sequences are found, sequence
`00` yielding two error segments (of value 1) and every other sequence one
segment (of value 0), so that per-sequence segment counts differ. -/
def fxC2 : DirInput :=
  { path := "fx2", overrides := none
    seqs := fun s => if s = "00" then ⟨true, some [[1], [1]], some [[1], [1]], none⟩
                     else ⟨true, some [[0]], some [[0]], some 2⟩ }

/-- The entry produced for `fxC2`. -/
def fxC2entry : EntryMetrics := (entryOf (processDir core1 fxC2)).getD defaultEntry

/-- The per-sequence records of `fxC2entry`, written out (definitionally
equal to the computed ones). -/
def fxC2ms : List (String × SeqMetrics) :=
  ("00", ⟨0, 0, [⟨1⟩, ⟨1⟩], -1⟩) ::
    (["01", "02", "03", "04", "05", "06", "07", "08", "09", "10"].map
      (fun s => (s, ⟨0, 0, [⟨0⟩], 2 * 1000⟩)))

/-- C4 (amended) -- A metric-engine failure while evaluating any found
sequence of any visited results directory is fatal for the whole batch:
`build_benchmark` aborts with the (uncaught) shape-mismatch error, so no
entry is produced for any result set and no entry is marked incomplete on
its behalf. -/
theorem eval_failure_aborts_batch (core : List Pose → List Pose → ℚ × ℚ × List SegmentError)
    (dirs : List DirInput)
    (hbad : ∃ d ∈ dirs, is_metrics_dir d.seqs = true ∧
      ∃ s ∈ folder_names, presentBad (d.seqs s) = true) :
    buildBenchmark core dirs = .error .shapeMismatch := by
  induction dirs with
  | nil =>
    obtain ⟨d, hd, -⟩ := hbad
    exact absurd hd (List.not_mem_nil d)
  | cons d rest ih =>
    obtain ⟨d0, hd0, hm, hb⟩ := hbad
    rw [buildBenchmark]
    rcases List.mem_cons.mp hd0 with rfl | hd0rest
    · have hpd : processDir core d0 = .error .shapeMismatch := by
        unfold processDir
        rw [if_pos hm]
        simp only [seqLoop_error_of_bad core d0.seqs folder_names hb]
      simp only [hpd]
    · have hrest := ih ⟨d0, hd0rest, hm, hb⟩
      rcases hpd : processDir core d with e | oe
      · cases e
        simp only [hpd]
      · simp only [hpd, hrest]

/-- C4 counterexample -- With two result sets, the first containing a
sequence whose estimate/ground-truth lengths mismatch, the whole batch
aborts with the shape-mismatch error and produces no entries at all — even
though the second result set on its own would have produced an entry.  This
refutes the claim that such a failure is fatal only for its own entry. -/
theorem batch_not_isolated_cex :
    buildBenchmark core0 [dirBad, dirGood] = .error .shapeMismatch ∧
    exceptIsOk (buildBenchmark core0 [dirGood]) = true := by
  exact ⟨by decide, by decide⟩

/-- Witness for `eval_failure_aborts_batch` at a concrete batch. -/
theorem eval_failure_aborts_batch_witness :
    buildBenchmark core0 [dirBad] = .error .shapeMismatch :=
  eval_failure_aborts_batch core0 [dirBad]
    ⟨dirBad, List.mem_cons_self dirBad [], by decide, ⟨"01", by decide, by decide⟩⟩

/-- C5 (amended) -- For every results directory in which at least one (but
not all) of the expected sequences is found, and whose found sequences all
evaluate without error, an entry is still produced, marked
`has_all_sequences = false` with the sentinel `-1.0` as both aggregate
error and aggregate time; a directory where no expected sequence is found
produces no entry at all. -/
theorem missing_sequences_entry (core : List Pose → List Pose → ℚ × ℚ × List SegmentError)
    (dir : DirInput)
    (hm : is_metrics_dir dir.seqs = true)
    (hex : ∃ s ∈ folder_names, presentPair (dir.seqs s) = true)
    (hgood : ∀ s ∈ folder_names, presentBad (dir.seqs s) = false)
    (hmiss : ¬ ∀ s ∈ folder_names, presentPair (dir.seqs s) = true) :
    ∃ e, processDir core dir = .ok (some e) ∧ e.has_all_sequences = false ∧
      e.avg_tr_err = -1 ∧ e.avg_time = -1 := by
  have hl := seqLoop_ok_of_noBad core dir.seqs folder_names hgood
  have hhas : (folder_names.all fun s => presentPair (dir.seqs s)) = false := by
    by_contra hh
    exact hmiss (fun s hs => List.all_eq_true.mp (Bool.of_not_eq_false hh) s hs)
  obtain ⟨s0, hs0, hp0⟩ := hex
  have hne : ((folder_names.filter (fun s => presentPair (dir.seqs s))).map
      (fun s => (s, seqMetricsOf core (dir.seqs s)))).isEmpty = false := by
    have hmem : s0 ∈ folder_names.filter (fun s => presentPair (dir.seqs s)) :=
      List.mem_filter.mpr ⟨hs0, hp0⟩
    have hmem2 := List.mem_map_of_mem (fun s => (s, seqMetricsOf core (dir.seqs s))) hmem
    rcases hfe : (folder_names.filter (fun s => presentPair (dir.seqs s))).map
        (fun s => (s, seqMetricsOf core (dir.seqs s))) with _ | ⟨a, l⟩
    · simp_all
    · simp_all
  refine ⟨mkEntry ((folder_names.filter (fun s => presentPair (dir.seqs s))).map
      (fun s => (s, seqMetricsOf core (dir.seqs s)))) false (commandOf dir.overrides),
    ?_, by rw [mkEntry_has_all], by simp [mkEntry], by simp [mkEntry]⟩
  unfold processDir
  rw [if_pos hm]
  simp only [hl]
  simp [hne, hhas]

/-- C5 counterexample -- The directory `cx5` is recognized as a results
directory (its folder `00` exists) and is missing expected sequences, yet
no entry at all is recorded for it, because no sequence was found: the
claim's "the entry is still produced" fails when zero expected sequences
are found. -/
theorem missing_all_sequences_no_entry_cex :
    is_metrics_dir cx5.seqs = true ∧
    ¬ (∀ s ∈ folder_names, presentPair (cx5.seqs s) = true) ∧
    processDir core0 cx5 = .ok none := by
  refine ⟨by decide, by decide, by decide⟩

/-- Witness for `missing_sequences_entry` at the concrete directory
`dirGood`. -/
theorem missing_sequences_entry_witness :
    (entryOf (processDir core0 dirGood)).isSome = true ∧
    entryGood.has_all_sequences = false ∧
    entryGood.avg_tr_err = -1 ∧ entryGood.avg_time = -1 := by
  obtain ⟨e, he, h1, h2, h3⟩ := missing_sequences_entry core0 dirGood (by decide)
    ⟨"00", by decide, by decide⟩ (by decide) (by decide)
  refine ⟨by rw [he]; rfl, ?_, ?_, ?_⟩
  · show ((entryOf (processDir core0 dirGood)).getD defaultEntry).has_all_sequences = false
    rw [he]
    exact h1
  · show ((entryOf (processDir core0 dirGood)).getD defaultEntry).avg_tr_err = -1
    rw [he]
    exact h2
  · show ((entryOf (processDir core0 dirGood)).getD defaultEntry).avg_time = -1
    rw [he]
    exact h3

theorem mkEntry_avg_tr_err_true (ms : List (String × SeqMetrics)) (cmd : Option String) :
    (mkEntry ms true cmd).avg_tr_err =
      ((flatSegErrs ms).map (fun sg => sg.tr_err0)).sum /
        ((flatSegErrs ms).length : ℚ) * 100 := by
  simp [mkEntry, flatSegErrs]

theorem listMean_scale (l : List ℚ) (c : ℚ) :
    listMean (l.map (fun x => x * c)) = l.sum / (l.length : ℚ) * c := by
  unfold listMean
  rw [List.length_map]
  have hsum : (l.map (fun x => x * c)).sum = l.sum * c := by
    induction l with
    | nil => simp
    | cons a l ih => simp [ih, add_mul]
  rw [hsum, div_mul_eq_mul_div]

/-- C2 -- (a) For every produced complete entry — in particular one whose
sequences have differing per-segment counts — `AVG_tr_err` is the flat mean
of the per-segment translational errors over all segments of all sequences
(each expressed on the same percent scale as the aggregate), so sequences
with more segments weigh more; (b) it is not the mean of the per-sequence
mean errors: on the fixture `fxC2`, whose sequences have differing segment
counts, the two aggregations produce different values. -/
theorem avg_err_is_flat_segment_mean :
    (∀ (core : List Pose → List Pose → ℚ × ℚ × List SegmentError)
        (dir : DirInput) (e : EntryMetrics),
      processDir core dir = .ok (some e) → e.has_all_sequences = true →
      (∃ a ∈ e.seq_metrics, ∃ b ∈ e.seq_metrics, a.2.errors.length ≠ b.2.errors.length) →
      e.avg_tr_err = listMean ((flatSegErrs e.seq_metrics).map (fun sg => sg.tr_err0 * 100)))
    ∧ processDir core1 fxC2 = .ok (some fxC2entry)
    ∧ (∃ a ∈ fxC2entry.seq_metrics, ∃ b ∈ fxC2entry.seq_metrics,
        a.2.errors.length ≠ b.2.errors.length)
    ∧ fxC2entry.avg_tr_err ≠ specMeanOfSeqMeans fxC2entry.seq_metrics := by
  refine ⟨?_, rfl, by decide, ?_⟩
  · intro core dir e h hall _
    obtain ⟨hsm, he, -⟩ := entry_seq_metrics_all h hall
    rw [he, mkEntry_avg_tr_err_true, mkEntry_seq_metrics]
    have hmm : (flatSegErrs (folder_names.map
        (fun s => (s, seqMetricsOf core (dir.seqs s))))).map (fun sg => sg.tr_err0 * 100) =
        ((flatSegErrs (folder_names.map
          (fun s => (s, seqMetricsOf core (dir.seqs s))))).map (fun sg => sg.tr_err0)).map
          (fun x => x * 100) := by
      rw [List.map_map]
      rfl
    rw [hmm, listMean_scale, List.length_map]
  · have hfx : fxC2entry = mkEntry fxC2ms true none := rfl
    have h1 : fxC2entry.avg_tr_err = 50 / 3 := by
      rw [hfx, mkEntry_avg_tr_err_true]
      norm_num [flatSegErrs, fxC2ms, List.sum_cons, List.sum_nil]
    have h2 : specMeanOfSeqMeans fxC2entry.seq_metrics = 100 / 11 := by
      rw [hfx, mkEntry_seq_metrics]
      norm_num [specMeanOfSeqMeans, listMean, fxC2ms, List.sum_cons, List.sum_nil]
    rw [h1, h2]
    norm_num

/-- Witness for the universal part of `avg_err_is_flat_segment_mean` at the
concrete fixture. -/
theorem avg_err_is_flat_segment_mean_witness :
    fxC2entry.avg_tr_err =
      listMean ((flatSegErrs fxC2entry.seq_metrics).map (fun sg => sg.tr_err0 * 100)) :=
  avg_err_is_flat_segment_mean.1 core1 fxC2 fxC2entry rfl rfl (by decide)

/-- C3 counterexample -- For the concrete result set `dirGood`, whose
sequence `00` carries `nsecs_per_frame = 7`, the recorded per-sequence time
is `7 * 1000.0 = 7000`, not `7 * 1e-6` as the claim would have it. -/
theorem time_scaling_cex :
    ((lookupSeq entryGood.seq_metrics "00").getD ⟨0, 0, [], 0⟩).average_time = 7 * 1000 ∧
    ¬ ((lookupSeq entryGood.seq_metrics "00").getD ⟨0, 0, [], 0⟩).average_time =
        7 * (1 / 1000000) := by
  have h0 : ((lookupSeq entryGood.seq_metrics "00").getD ⟨0, 0, [], 0⟩).average_time =
      7 * 1000 := rfl
  refine ⟨h0, ?_⟩
  rw [h0]
  norm_num

/-- Witness for `stored_time_scaling` at the concrete result set
`dirGood`. -/
theorem stored_time_scaling_witness :
    ((lookupSeq entryGood.seq_metrics "00").getD ⟨0, 0, [], 0⟩).average_time = 7 * 1000 :=
  stored_time_scaling core0 dirGood entryGood "00"
    ((lookupSeq entryGood.seq_metrics "00").getD ⟨0, 0, [], 0⟩) 7 rfl rfl rfl

/-! ## Lemmas about fixed-point formatting and report rows -/

theorem padDigits_length (d n : Nat) : (padDigits d n).length = d := by
  induction d generalizing n with
  | zero => rfl
  | succ d ih => simp [padDigits, ih]

theorem padDigits_no_dot (d n : Nat) : ∀ c ∈ padDigits d n, c ≠ '.' := by
  induction d generalizing n with
  | zero =>
    intro c hc
    simp [padDigits] at hc
  | succ d ih =>
    intro c hc
    rw [padDigits] at hc
    rcases List.mem_append.mp hc with h | h
    · exact ih _ c h
    · have hcd : c = Nat.digitChar (n % 10) := by simpa using h
      subst hcd
      have h10 : n % 10 < 10 := Nat.mod_lt _ (by norm_num)
      set m := n % 10 with hm
      interval_cases m <;> decide

theorem fmtFixed_hasFracDigits (d : Nat) (q : ℚ) : hasFracDigits d (fmtFixed d q) :=
  ⟨(if round (q * ((10 : ℚ) ^ d)) < 0 then "-" else "") ++
      Nat.repr ((round (q * ((10 : ℚ) ^ d))).natAbs / 10 ^ d),
   padDigits d ((round (q * ((10 : ℚ) ^ d))).natAbs % 10 ^ d),
   rfl, padDigits_length _ _, padDigits_no_dot _ _⟩

/-- C8 (amended) -- The report has one row per ranked entry; each row has
one per-sequence cell for each of the fixed identifiers "00"–"10", in
order, plus an aggregate-error cell and an aggregate-time cell.  A
per-sequence cell shows the sequence's translational error formatted to 4
decimal places and is blank exactly when that sequence is missing from the
entry; the aggregate-error cell is formatted to 4 decimal places when the
entry is complete and is blank when it is incomplete; the aggregate-time
cell is always formatted to 3 decimal places. -/
theorem report_row_shape (entries : List (String × EntryMetrics)) (e : EntryMetrics) :
    (buildTable entries).length = entries.length ∧
    folder_names = ["00", "01", "02", "03", "04", "05", "06", "07", "08", "09", "10"] ∧
    (buildRow e).seq_cells = folder_names.map (seqCell e.seq_metrics) ∧
    (∀ s sm, lookupSeq e.seq_metrics s = some sm →
      seqCell e.seq_metrics s = fmtFixed 4 (sm.tr_err * 100) ∧
      hasFracDigits 4 (seqCell e.seq_metrics s)) ∧
    (∀ s, lookupSeq e.seq_metrics s = none → seqCell e.seq_metrics s = "") ∧
    (e.has_all_sequences = true →
      (buildRow e).avg_cell = fmtFixed 4 e.avg_tr_err ∧
      hasFracDigits 4 ((buildRow e).avg_cell)) ∧
    (e.has_all_sequences = false → (buildRow e).avg_cell = "") ∧
    hasFracDigits 3 ((buildRow e).time_cell) := by
  refine ⟨?_, rfl, rfl, ?_, ?_, ?_, ?_, ?_⟩
  · rw [buildTable, List.length_map, rank]
    exact (List.perm_insertionSort entryLE entries).length_eq
  · intro s sm hs
    simp only [seqCell, hs]
    exact ⟨trivial, fmtFixed_hasFracDigits 4 _⟩
  · intro s hs
    simp only [seqCell, hs]
  · intro hall
    rw [buildRow]
    simp only [hall, if_true]
    exact ⟨trivial, fmtFixed_hasFracDigits 4 _⟩
  · intro hnone
    rw [buildRow]
    simp [hnone]
  · exact fmtFixed_hasFracDigits 3 _

/-- C8 counterexample -- The incomplete entry produced for `dirGood` gets a
blank aggregate-error cell: the row does not show its `avg_tr_err`
formatted to 4 decimal places. -/
theorem aggregate_cell_blank_cex :
    entryGood.has_all_sequences = false ∧
    (buildRow entryGood).avg_cell = "" ∧
    (buildRow entryGood).avg_cell ≠ fmtFixed 4 entryGood.avg_tr_err := by
  refine ⟨rfl, rfl, ?_⟩
  intro h
  have h0 : (buildRow entryGood).avg_cell = "" := rfl
  rw [h0] at h
  obtain ⟨a, b, hs, hb, -⟩ := fmtFixed_hasFracDigits 4 entryGood.avg_tr_err
  have hlen := congrArg String.length (h.trans hs)
  rw [String.length_append, String.length_append] at hlen
  have hmk : (String.mk b).length = b.length := rfl
  have hdot : ("." : String).length = 1 := rfl
  have hnil : ("" : String).length = 0 := rfl
  rw [hmk, hdot, hnil, hb] at hlen
  omega

/-- Witness for `report_row_shape` at the concrete entry `entryGood`. -/
theorem report_row_shape_witness :
    (buildRow entryGood).avg_cell = "" ∧
    hasFracDigits 3 ((buildRow entryGood).time_cell) := by
  obtain ⟨-, -, -, -, -, -, h7, h8⟩ := report_row_shape [] entryGood
  exact ⟨h7 rfl, h8⟩

/-- C9 -- `have_sequence` returns true exactly on the two-digit KITTI
identifiers "00" through "21" with "03" excluded, together with the
KITTI-CARLA identifiers "Town01" through "Town07"; in particular "03" is
never recognized even though the benchmark's expected folder names include
"03". -/
theorem have_sequence_spec :
    (∀ s : String, have_sequence s = true ↔
      s ∈ (["00", "01", "02", "04", "05", "06", "07", "08", "09", "10", "11", "12",
            "13", "14", "15", "16", "17", "18", "19", "20", "21",
            "Town01", "Town02", "Town03", "Town04", "Town05", "Town06", "Town07"] :
          List String)) ∧
    have_sequence "03" = false ∧ "03" ∈ folder_names := by
  refine ⟨?_, by decide, by decide⟩
  intro s
  have hk : KITTI_SEQUENCE ++ KITTI_CARLA_SEQUENCE =
      ["00", "01", "02", "04", "05", "06", "07", "08", "09", "10", "11", "12",
       "13", "14", "15", "16", "17", "18", "19", "20", "21",
       "Town01", "Town02", "Town03", "Town04", "Town05", "Town06", "Town07"] := by decide
  rw [← hk]
  simp [have_sequence, List.mem_append]

/-! ## Lemmas about the dataset sequence dict -/

theorem ne_append_timestamps (s : String) : s ≠ s ++ "_timestamps" := by
  intro h
  have hlen := congrArg String.length h
  rw [String.length_append] at hlen
  have h11 : ("_timestamps" : String).length = 11 := rfl
  rw [h11] at hlen
  omega

theorem any_key_map_set (d : ChanDict) (k : String) (v : ChanVal) (k' : String) :
    (d.map (fun p => if p.1 == k then (k, v) else p)).any (fun p => p.1 == k') =
      d.any (fun p => p.1 == k') := by
  induction d with
  | nil => rfl
  | cons a d ih =>
    rw [List.map_cons, List.any_cons, List.any_cons, ih]
    congr 1
    by_cases hak : a.1 == k
    · rw [if_pos hak]
      have ha : a.1 = k := eq_of_beq hak
      rw [ha]
    · rw [if_neg hak]

theorem containsChannel_dictSet (d : ChanDict) (k : String) (v : ChanVal) (k' : String) :
    containsChannel (dictSet d k v) k' = (containsChannel d k' || k' == k) := by
  unfold containsChannel dictSet
  by_cases hd : d.any (fun p => p.1 == k)
  · rw [if_pos hd]
    by_cases hk : k' = k
    · subst hk
      have hleft : (d.map (fun p => if p.1 == k' then (k', v) else p)).any
          (fun p => p.1 == k') = true := by
        obtain ⟨p₀, hp₀, hb⟩ := List.any_eq_true.mp hd
        exact List.any_eq_true.mpr
          ⟨(k', v), List.mem_map.mpr ⟨p₀, hp₀, by simp [hb]⟩, by simp⟩
      rw [hleft]
      simp
    · rw [any_key_map_set d k v k']
      have : (k' == k) = false := beq_eq_false_iff_ne.mpr hk
      rw [this, Bool.or_false]
  · rw [if_neg hd, List.any_append]
    have hsingle : ([(k, v)] : ChanDict).any (fun p => p.1 == k') = (k' == k) := by
      simp [List.any_cons]
      by_cases hk : k' = k
      · simp [hk]
      · simp [hk, Ne.symm hk]
    rw [hsingle]


/-- `__getitem__` on an in-bounds index: the assertion passes and the dict
is built by the three (or two) insertions of lines 111-124. -/
theorem CT_getitem_inbounds (seq : CTSeq) (idx : Int)
    (h : 0 ≤ idx ∧ idx < (seq.numFrames : Int)) :
    CTSeq.getitem seq idx = .ok (
      match seq.gt with
      | some g =>
        dictSet (dictSet (dictSet [] seq.numpy_pc_channel
            (.floatArr (seq.frames idx.toNat).raw_point))
          (seq.numpy_pc_channel ++ "_timestamps")
            (.floatArr (seq.frames idx.toNat).timestamp))
          seq.gt_pose_channel (.poseMat (g idx.toNat))
      | none =>
        dictSet (dictSet [] seq.numpy_pc_channel
            (.floatArr (seq.frames idx.toNat).raw_point))
          (seq.numpy_pc_channel ++ "_timestamps")
            (.floatArr (seq.frames idx.toNat).timestamp)) := by
  unfold CTSeq.getitem assert_debug
  rw [decide_eq_true h]
  rcases seq.gt with _ | g <;> rfl

/-- `__getitem__` on an out-of-bounds index fails the `"Index Error"`
assertion. -/
theorem CT_getitem_oob (seq : CTSeq) (idx : Int)
    (h : idx < 0 ∨ (seq.numFrames : Int) ≤ idx) :
    CTSeq.getitem seq idx = .error "Index Error" := by
  have hcond : ¬ (0 ≤ idx ∧ idx < (seq.numFrames : Int)) := by
    rcases h with h | h <;> omega
  unfold CTSeq.getitem assert_debug
  rw [decide_eq_false hcond]
  rfl

/-- C10 (amended) -- `__getitem__` fails with the `"Index Error"` assertion
exactly when the index is out of bounds; for an in-bounds index it returns a
dict that always contains the point-cloud channel and its timestamps
channel, and — provided the ground-truth channel name is distinct from
those two channel names — contains the ground-truth pose channel if and
only if ground truth was available when the sequence was constructed. -/
theorem getitem_spec (nf : Nat) (frames : Nat → LidarFrame) (hasGT : Bool)
    (loaded : Nat → List ℚ) (gtch pcch : String) (idx : Int) :
    ((idx < 0 ∨ (nf : Int) ≤ idx) →
      CTSeq.getitem (CTSeq.init nf frames hasGT loaded gtch pcch) idx =
        .error "Index Error") ∧
    (0 ≤ idx → idx < (nf : Int) →
      ∃ d, CTSeq.getitem (CTSeq.init nf frames hasGT loaded gtch pcch) idx = .ok d ∧
        containsChannel d pcch = true ∧
        containsChannel d (pcch ++ "_timestamps") = true ∧
        (gtch ≠ pcch → gtch ≠ pcch ++ "_timestamps" →
          (containsChannel d gtch = true ↔ hasGT = true))) := by
  constructor
  · intro hoob
    exact CT_getitem_oob _ idx hoob
  · intro h0 h1
    have hget := CT_getitem_inbounds (CTSeq.init nf frames hasGT loaded gtch pcch) idx ⟨h0, h1⟩
    have hd1 : dictSet (dictSet ([] : ChanDict) pcch
        (.floatArr (frames idx.toNat).raw_point))
        (pcch ++ "_timestamps") (.floatArr (frames idx.toNat).timestamp) =
        [(pcch, .floatArr (frames idx.toNat).raw_point),
         (pcch ++ "_timestamps", .floatArr (frames idx.toNat).timestamp)] := by
      have h0' : dictSet ([] : ChanDict) pcch (.floatArr (frames idx.toNat).raw_point) =
          [(pcch, .floatArr (frames idx.toNat).raw_point)] := rfl
      rw [h0']
      unfold dictSet
      have hany : ([(pcch, ChanVal.floatArr (frames idx.toNat).raw_point)] : ChanDict).any
          (fun p => p.1 == pcch ++ "_timestamps") = false := by
        simp [beq_eq_false_iff_ne]
        exact fun h => ne_append_timestamps pcch h
      rw [hany]
      rfl
    have hc1 : containsChannel
        [(pcch, ChanVal.floatArr (frames idx.toNat).raw_point),
         (pcch ++ "_timestamps", ChanVal.floatArr (frames idx.toNat).timestamp)] pcch = true := by
      simp [containsChannel]
    have hc2 : containsChannel
        [(pcch, ChanVal.floatArr (frames idx.toNat).raw_point),
         (pcch ++ "_timestamps", ChanVal.floatArr (frames idx.toNat).timestamp)]
        (pcch ++ "_timestamps") = true := by
      simp [containsChannel]
    cases hgt : hasGT
    · subst hgt
      refine ⟨[(pcch, .floatArr (frames idx.toNat).raw_point),
               (pcch ++ "_timestamps", .floatArr (frames idx.toNat).timestamp)],
        ?_, hc1, hc2, ?_⟩
      · rw [hget]
        show Except.ok (dictSet (dictSet ([] : ChanDict) pcch
            (.floatArr (frames idx.toNat).raw_point)) (pcch ++ "_timestamps")
            (.floatArr (frames idx.toNat).timestamp)) = _
        rw [hd1]
      · intro hne1 hne2
        constructor
        · intro hcon
          exfalso
          simp only [containsChannel, List.any_cons, List.any_nil, Bool.or_false,
            Bool.or_eq_true, beq_iff_eq] at hcon
          rcases hcon with h | h
          · exact hne1 h.symm
          · exact hne2 h.symm
        · intro h
          exact absurd h (by simp)
    · subst hgt
      refine ⟨dictSet [(pcch, .floatArr (frames idx.toNat).raw_point),
               (pcch ++ "_timestamps", .floatArr (frames idx.toNat).timestamp)]
               gtch (.poseMat (loaded idx.toNat)), ?_, ?_, ?_, ?_⟩
      · rw [hget]
        show Except.ok (dictSet (dictSet (dictSet ([] : ChanDict) pcch
            (.floatArr (frames idx.toNat).raw_point)) (pcch ++ "_timestamps")
            (.floatArr (frames idx.toNat).timestamp)) gtch
            (.poseMat (loaded idx.toNat))) = _
        rw [hd1]
      · rw [containsChannel_dictSet, hc1]
        rfl
      · rw [containsChannel_dictSet, hc2]
        rfl
      · intro _ _
        rw [containsChannel_dictSet]
        simp

/-- A sequence constructed with the ground-truth channel name aliased to the
point-cloud channel name, and no ground truth available. -/
def c10seq : CTSeq :=
  CTSeq.init 1 (fun _ => ⟨[], []⟩) false (fun _ => []) "numpy_pc" "numpy_pc"

/-- C10 counterexample -- For `c10seq` (no ground truth loaded, but
`gt_pose_channel` aliased to `"numpy_pc"`), the dict returned for the
in-bounds index 0 does contain the ground-truth pose channel name even
though no ground truth was available at construction, refuting the claimed
unconditional "if and only if". -/
theorem gt_channel_alias_cex :
    c10seq.gt = none ∧
    containsChannel (dictOfResult (CTSeq.getitem c10seq 0)) c10seq.gt_pose_channel = true := by
  exact ⟨rfl, by decide⟩

/-- A well-formed sequence with distinct channel names and ground truth
available. -/
def c10wseq : CTSeq :=
  CTSeq.init 2 (fun _ => ⟨[], []⟩) true (fun _ => []) "absolute_pose_gt" "numpy_pc"

/-- Witness for `getitem_spec` at the concrete sequence `c10wseq`, for the
out-of-bounds index `-1` and the in-bounds index `0`. -/
theorem getitem_spec_witness :
    CTSeq.getitem c10wseq (-1) = .error "Index Error" ∧
    containsChannel (dictOfResult (CTSeq.getitem c10wseq 0)) "numpy_pc" = true ∧
    containsChannel (dictOfResult (CTSeq.getitem c10wseq 0)) "absolute_pose_gt" = true := by
  refine ⟨(getitem_spec 2 (fun _ => ⟨[], []⟩) true (fun _ => []) "absolute_pose_gt" "numpy_pc"
    (-1)).1 (Or.inl (by norm_num)), ?_⟩
  obtain ⟨d, hd, h1, h2, h3⟩ :=
    (getitem_spec 2 (fun _ => ⟨[], []⟩) true (fun _ => []) "absolute_pose_gt" "numpy_pc" 0).2
      (by norm_num) (by norm_num)
  have hd2 : CTSeq.getitem c10wseq 0 = .ok d := hd
  rw [hd2]
  exact ⟨h1, (h3 (by decide) (by decide)).mpr rfl⟩

/-- Witness for `avg_time_is_sentinel_mean` at the concrete directory
`fxC2`, where sequence "00" has no timing metadata (sentinel `-1`) and the
other ten have `nsecs_per_frame = 2`. -/
theorem avg_time_is_sentinel_mean_witness :
    fxC2entry.avg_time =
      (folder_names.map (fun s => time_ms_of ((fxC2.seqs s).nsecs_per_frame))).sum /
        (folder_names.length : ℚ) :=
  avg_time_is_sentinel_mean core1 fxC2 fxC2entry rfl rfl

/-- Witness for `have_sequence_spec` at a concrete recognized name. -/
theorem have_sequence_spec_witness : have_sequence "Town03" = true :=
  (have_sequence_spec.1 "Town03").mpr (by decide)
